import Mathlib

/-!
# Biscepter: job coordinator and HTTP facade

A shallow embedding of `pkg/biscepter/job.go` and `internal/server/http.go`.

Calls that leave the two files (the operating system, `git`, the YAML decoder, the
replica methods `createJobReplica`, `start` and `stop`) are taken as oracles collected in
an environment record, and every such call is written to a trace of events, so that
statements such as "replica `j` was stopped" are statements about the trace.
-/

namespace Biscepter

/-- Go `error` values, modelled by their message; `Option GoError` is a possibly-nil error. -/
abbrev GoError := String

/-! ## `strings.Split` with the one-character separator used by `Job.Run` -/

/-- Pieces of a character list cut at every occurrence of `sep`: always one piece more
than there are separators, as `strings.Split` does for a non-empty separator. -/
def splitChars (sep : Char) : List Char → List (List Char)
  | [] => [[]]
  | c :: cs =>
    if c = sep then [] :: splitChars sep cs
    else
      match splitChars sep cs with
      | [] => [[c]]
      | p :: ps => (c :: p) :: ps

namespace strings

/-- Go `strings.Split(s, sep)` for a separator of one character. -/
def Split (s : String) (sep : Char) : List String :=
  (splitChars sep s.data).map String.mk

end strings

/-! ## Data model of `job.go` -/

/-- Retry configuration of a healthcheck, as built in `job_integration_test.go`
(`HealthcheckConfig{Retries, Backoff, MaxBackoff}`); durations are nanosecond counts. -/
structure HealthcheckConfig where
  Retries : Int := 0
  Backoff : Int := 0
  MaxBackoff : Int := 0
  deriving DecidableEq, Repr

/-- The `Healthcheck` struct, with the fields used in `job_integration_test.go`
(`Healthcheck{Port, CheckType, Data, Config}`). Every default is the Go zero value; the
check type is an integer-coded enumeration. -/
structure Healthcheck where
  Port : Int := 0
  CheckType : Int := 0
  Data : String := ""
  Config : HealthcheckConfig := {}
  deriving DecidableEq, Repr

/-- Modelled from the spec: the retry block `config:{retries, backoff, maxBackoff}` of a
`healthcheck` entry of the YAML job configuration; its Go declaration is not part of the
sources at hand. -/
structure healthcheckConfigConf where
  Retries : Int := 0
  Backoff : Int := 0
  MaxBackoff : Int := 0
  deriving DecidableEq, Repr

/-- Modelled from the spec: the type `healthcheckConf` of one `healthcheck` entry of the
YAML job configuration, `{port, checkType, data, config:{retries, backoff, maxBackoff}}`;
its Go declaration is not part of the sources at hand. -/
structure healthcheckConf where
  Port : Int := 0
  CheckType : String := ""
  Data : String := ""
  Config : healthcheckConfigConf := {}
  deriving DecidableEq, Repr

/-- The struct `jobConfig`; a key absent from the YAML document leaves the Go zero value,
which is the default of each field. -/
structure jobConfig where
  Repository : String := ""
  GoodCommit : String := ""
  BadCommit : String := ""
  ErrorExitCode : Int := 0
  Port : Int := 0
  Ports : List Int := []
  Healthcheck : List healthcheckConf := []
  Dockerfile : String := ""
  DockerfilePath : String := ""
  DockerfilePathRelative : String := ""
  BuildCost : Float := 0

/-- A replica handle. The struct itself lives outside the two files; all that is needed
here is an identity. -/
structure replica where
  index : Nat
  deriving DecidableEq, Repr

/-- A `*replica`: `none` is the nil pointer. -/
abbrev replicaPtr := Option replica

/-- The struct `Job`. -/
structure Job where
  ReplicasCount : Int := 0
  BuildCost : Float := 0
  Ports : List Int := []
  Healthchecks : List Healthcheck := []
  GoodCommit : String := ""
  BadCommit : String := ""
  Dockerfile : String := ""
  DockerfilePath : String := ""
  DockerfilePathRelative : String := ""
  replicas : List replicaPtr := []
  repository : String := ""
  repoPath : String := ""
  commits : List String := []

/-! ## `GetJobFromConfig` -/

/-- The loop `for _, check := range config.Healthcheck` of `GetJobFromConfig`: one
`Healthcheck{Port: check.Port}` is appended per entry. -/
def appendHealthchecks (acc : List Healthcheck) : List healthcheckConf → List Healthcheck
  | [] => acc
  | check :: rest => appendHealthchecks (acc ++ [{ Port := check.Port }]) rest

/-- The part of `GetJobFromConfig` after a successful decode ("Convert to Job struct"). -/
def jobOfConfig (config : jobConfig) : Job :=
  let job : Job :=
    { BuildCost := config.BuildCost
      Dockerfile := config.Dockerfile
      DockerfilePath := config.DockerfilePath
      DockerfilePathRelative := config.DockerfilePathRelative
      repository := config.Repository }
  let job := { job with Ports := config.Ports }
  let job := if config.Port ≠ 0 then { job with Ports := [config.Port] } else job
  { job with Healthchecks := appendHealthchecks job.Healthchecks config.Healthcheck }

/-- Function `GetJobFromConfig(r)`. The YAML decoder is a library outside the repository and is
taken as the function `Decode`, giving either the decode error or the filled-in
`jobConfig`. The result is Go's `(*Job, error)`: `.error e` stands for `(nil, e)`. -/
def GetJobFromConfig (Decode : String → Except GoError jobConfig) (r : String) :
    Except GoError Job :=
  match Decode r with
  | .error err => .error err
  | .ok config => .ok (jobOfConfig config)

/-! ## `Job.Run` and `Job.Stop` -/

/-- What `job.go` asks of the outside world. Every oracle returns what the Go call
returns; a Go pair `(value, error)` is a Lean pair. -/
structure Env where
  /-- Function `os.MkdirTemp("", "")`. -/
  MkdirTemp : String × Option GoError
  /-- Command `git clone repository repoPath`. -/
  gitClone : String → String → Option GoError
  /-- Command `git rev-list --first-parent ^good bad` run in a directory: its standard
  output and error; the arguments are `good`, `bad` and the directory. -/
  gitRevList : String → String → String → String × Option GoError
  /-- Function `createJobReplica(job, i)`. -/
  createJobReplica : Nat → replicaPtr × Option GoError
  /-- Method `(*replica).start(rsChan, ocChan)`. -/
  start : replicaPtr → Option GoError
  /-- Method `(*replica).stop()`. -/
  stop : replicaPtr → Option GoError
  /-- Function `os.RemoveAll(path)`. -/
  RemoveAll : String → Option GoError

/-- Calls made to the outside world, in the order they happen. -/
inductive Event where
  | mkdirTemp
  | clone (repository repoPath : String)
  | revList (good bad dir : String)
  | create (i : Nat)
  | start (r : replicaPtr)
  | stop (r : replicaPtr)
  | removeAll (path : String)
  deriving DecidableEq, Repr

/-- A buffered Go channel, reduced to its capacity. -/
structure Chan where
  cap : Nat
  deriving DecidableEq, Repr

/-- Outcome of `Job.Run`: both channels, or an error (with nil channels), or the runtime
panic of `make` on a negative length. -/
inductive RunResult where
  | ok (rsChan ocChan : Chan)
  | error (err : GoError)
  | panicked
  deriving DecidableEq, Repr

/-- The loop `for j := range i ( job.replicas[j].stop() )` of `Job.Run`, over the
indices still to visit; it returns at the first stop that fails. -/
def stopRunning (env : Env) (job : Job) : List Nat → List Event × Option GoError
  | [] => ([], none)
  | j :: js =>
    let r := (job.replicas.getD j none)
    match env.stop r with
    | some err => ([Event.stop r], some err)
    | none =>
      let rest := stopRunning env job js
      (Event.stop r :: rest.1, rest.2)

/-- The error returned after the roll-back loop: the error of the failing stop if there
is one (the inner `err` shadows the outer one), else the error that started it. -/
def rollbackError (stopErr : Option GoError) (err : GoError) : GoError :=
  match stopErr with
  | some e => e
  | none => err

/-- The loop `for i := range job.ReplicasCount` of `Job.Run` ("Create all replicas"),
over the indices still to visit. It returns the job, the trace and the error, if any. -/
def createReplicas (env : Env) : List Nat → Job → Job × List Event × Option GoError
  | [], job => (job, [], none)
  | i :: rest, job =>
    let created := env.createJobReplica i
    let job := { job with replicas := job.replicas.set i created.1 }
    match created.2 with
    | some err =>
      let stopped := stopRunning env job (List.range i)
      (job, Event.create i :: stopped.1, some (rollbackError stopped.2 err))
    | none =>
      match env.start created.1 with
      | some err =>
        let stopped := stopRunning env job (List.range i)
        (job, Event.create i :: Event.start created.1 :: stopped.1,
          some (rollbackError stopped.2 err))
      | none =>
        let next := createReplicas env rest job
        (next.1, Event.create i :: Event.start created.1 :: next.2.1, next.2.2)

/-- The capacity written in `make(chan RunningSystem, 100), make(chan OffendingCommit, 100)`. -/
def channelSize : Nat := 100

/-- Method `Job.Run`: the job as left behind, the trace of outside calls, and the result.
The diagnostic `fmt.Printf` of the commit list is left out. -/
def Job.Run (env : Env) (job : Job) : Job × List Event × RunResult :=
  let job := { job with repoPath := env.MkdirTemp.1 }
  match env.MkdirTemp.2 with
  | some err => (job, [Event.mkdirTemp], RunResult.error err)
  | none =>
    match env.gitClone job.repository job.repoPath with
    | some err =>
      (job, [Event.mkdirTemp, Event.clone job.repository job.repoPath], RunResult.error err)
    | none =>
      let out := env.gitRevList job.GoodCommit job.BadCommit job.repoPath
      let t := [Event.mkdirTemp, Event.clone job.repository job.repoPath,
        Event.revList job.GoodCommit job.BadCommit job.repoPath]
      match out.2 with
      | some err => (job, t, RunResult.error err)
      | none =>
        let job := { job with commits := strings.Split out.1 '\n' }
        let rsChan : Chan := ⟨channelSize⟩
        let ocChan : Chan := ⟨channelSize⟩
        if job.ReplicasCount < 0 then (job, t, RunResult.panicked)
        else
          let job := { job with replicas := List.replicate job.ReplicasCount.toNat none }
          let res := createReplicas env (List.range job.ReplicasCount.toNat) job
          match res.2.2 with
          | some err => (res.1, t ++ res.2.1, RunResult.error err)
          | none => (res.1, t ++ res.2.1, RunResult.ok rsChan ocChan)

/-- The loop `for _, replica := range j.replicas` of `Job.Stop`; it returns at the
first stop that fails. -/
def stopReplicas (env : Env) : List replicaPtr → List Event × Option GoError
  | [] => ([], none)
  | r :: rs =>
    match env.stop r with
    | some err => ([Event.stop r], some err)
    | none =>
      let rest := stopReplicas env rs
      (Event.stop r :: rest.1, rest.2)

/-- Method `Job.Stop`: the trace of outside calls and the returned error. -/
def Job.Stop (env : Env) (j : Job) : List Event × Option GoError :=
  let stopped := stopReplicas env j.replicas
  match stopped.2 with
  | some err => (stopped.1, some err)
  | none => (stopped.1 ++ [Event.removeAll j.repoPath], env.RemoveAll j.repoPath)

/-! ## Go maps -/

/-- A Go `map[K]V` as the list of its entries; the order of the list is the order in
which `range` happens to visit them. A well-formed map has no key twice. -/
abbrev GoMap (K V : Type) := List (K × V)

namespace GoMap

variable {K V : Type} [DecidableEq K]

/-- The lookup `v, found := m[k]`. -/
def get : GoMap K V → K → Option V
  | [], _ => none
  | (k1, v) :: rest, k => if k1 = k then some v else get rest k

/-- The statement `delete(m, k)`. -/
def delete (m : GoMap K V) (k : K) : GoMap K V :=
  m.filter (fun e => decide (e.1 ≠ k))

/-- The assignment `m[k] = v`. -/
def set (m : GoMap K V) (k : K) (v : V) : GoMap K V :=
  (k, v) :: delete m k

/-- The keys of the map, in entry order. -/
def keys (m : GoMap K V) : List K := m.map Prod.fst

end GoMap

/-! ## `fmt.Sprint` on integers, and reading a decimal back -/

namespace fmt

/-- Go `fmt.Sprint(i)` for an `int`: the decimal digits, after a minus sign when negative. -/
def Sprint (i : Int) : String :=
  match i with
  | Int.ofNat n => String.mk (Nat.toDigits 10 n)
  | Int.negSucc n => String.mk ('-' :: Nat.toDigits 10 (n + 1))

end fmt

/-- Value of a decimal digit character. -/
def digitVal (c : Char) : Option Nat :=
  if 48 ≤ c.toNat ∧ c.toNat ≤ 57 then some (c.toNat - 48) else none

/-- Reads digits left to right onto the accumulator; any other character fails. -/
def parseDigits : Nat → List Char → Option Nat
  | acc, [] => some acc
  | acc, c :: cs =>
    match digitVal c with
    | none => none
    | some d => parseDigits (10 * acc + d) cs

/-- Reads a non-empty string of decimal digits. -/
def parseNat (cs : List Char) : Option Nat :=
  if cs = [] then none else parseDigits 0 cs

/-- Reads a decimal integer with an optional leading minus sign: the reading of the
stringified ports "back to integers". -/
def parseInt (s : String) : Option Int :=
  match s.data with
  | [] => none
  | c :: cs =>
    if c = '-' then (parseNat cs).map (fun n => - (n : Int))
    else (parseNat (c :: cs)).map (fun n => (n : Int))

/-! ## Data model of `http.go` -/

/-- The fields of `biscepter.RunningSystem` that `http.go` reads. Its methods `IsGood`
and `IsBad` lie outside the file; calling one is recorded as a `Delivery`. -/
structure RunningSystem where
  ReplicaIndex : Int := 0
  Ports : GoMap Int Int := []
  deriving DecidableEq, Repr

/-- The fields of `biscepter.OffendingCommit` that `http.go` reads. -/
structure OffendingCommit where
  ReplicaIndex : Int := 0
  Commit : String := ""
  CommitOffset : Int := 0
  CommitMessage : String := ""
  CommitDate : String := ""
  CommitAuthor : String := ""
  deriving DecidableEq, Repr

/-- The struct `httpServer`; a channel is the queue of values waiting in it. -/
structure httpServer where
  rsChan : List RunningSystem := []
  ocChan : List OffendingCommit := []
  rsMap : GoMap String RunningSystem := []
  deriving DecidableEq, Repr

/-- The struct `runningSystemResponse`. -/
structure runningSystemResponse where
  SystemIndex : String
  ReplicaIndex : Int
  Ports : GoMap String String
  deriving DecidableEq, Repr

/-- The struct `offendingCommitResponse`. -/
structure offendingCommitResponse where
  ReplicaIndex : Int
  Commit : String
  CommitOffset : Int
  CommitMessage : String
  CommitDate : String
  CommitAuthor : String
  deriving DecidableEq, Repr

/-- Body of a `GET /system` answer; the status is 200 in both cases. -/
inductive SystemResponse where
  | offendingCommit (body : offendingCommitResponse)
  | runningSystem (body : runningSystemResponse)
  deriving DecidableEq, Repr

/-- Which case of the `select` in `getSystem` fires. -/
inductive SelectCase where
  | ocChan
  | rsChan
  deriving DecidableEq, Repr

/-- The two verdict methods called by the handlers. -/
inductive Verdict where
  | IsGood
  | IsBad
  deriving DecidableEq, Repr

/-- One call `rs.IsGood()` or `rs.IsBad()`: the receiver and the method. -/
structure Delivery where
  rs : RunningSystem
  verdict : Verdict
  deriving DecidableEq, Repr

/-- What a verdict handler leaves behind: the server, the status passed to
`AbortWithStatus`, and the verdict calls it made. -/
structure VerdictOutcome where
  server : httpServer
  status : Nat
  delivered : List Delivery
  deriving DecidableEq, Repr

/-! ## Handlers of `http.go` -/

/-- The loop `for k, v := range system.Ports` of `getSystem`, started from the map built
so far: `strPorts[fmt.Sprint(k)] = fmt.Sprint(v)`. -/
def stringifyPorts (strPorts : GoMap String String) : List (Int × Int) → GoMap String String
  | [] => strPorts
  | (k, v) :: rest => stringifyPorts (GoMap.set strPorts (fmt.Sprint k) (fmt.Sprint v)) rest

/-- The handler `getSystem`. The scheduler chooses a case of the `select` (`fires`); the
call does not return (`none`) while the chosen channel is empty. The argument `id` is the
value of `uniuri.New()`. The diagnostic `fmt.Print` of the marshalled body is left out. -/
def httpServer.getSystem (h : httpServer) (fires : SelectCase) (id : String) :
    Option (httpServer × SystemResponse) :=
  match fires with
  | SelectCase.ocChan =>
    match h.ocChan with
    | [] => none
    | commit :: rest =>
      some ({ h with ocChan := rest },
        SystemResponse.offendingCommit
          { ReplicaIndex := commit.ReplicaIndex
            Commit := commit.Commit
            CommitOffset := commit.CommitOffset
            CommitMessage := commit.CommitMessage
            CommitDate := commit.CommitDate
            CommitAuthor := commit.CommitAuthor })
  | SelectCase.rsChan =>
    match h.rsChan with
    | [] => none
    | system :: rest =>
      let strPorts := stringifyPorts [] system.Ports
      some ({ h with rsChan := rest, rsMap := GoMap.set h.rsMap id system },
        SystemResponse.runningSystem
          { SystemIndex := id
            ReplicaIndex := system.ReplicaIndex
            Ports := strPorts })

/-- The handler `postIsGood`, for the path parameter `systemId = id`. -/
def httpServer.postIsGood (h : httpServer) (id : String) : VerdictOutcome :=
  match GoMap.get h.rsMap id with
  | some rs =>
    { server := { h with rsMap := GoMap.delete h.rsMap id }
      status := 200
      delivered := [⟨rs, Verdict.IsGood⟩] }
  | none => { server := h, status := 404, delivered := [] }

/-- The handler `postIsBad`, for the path parameter `systemId = id`. -/
def httpServer.postIsBad (h : httpServer) (id : String) : VerdictOutcome :=
  match GoMap.get h.rsMap id with
  | some rs =>
    { server := { h with rsMap := GoMap.delete h.rsMap id }
      status := 200
      delivered := [⟨rs, Verdict.IsBad⟩] }
  | none => { server := h, status := 404, delivered := [] }

/-! ## Inputs and environments used in the statements -/

/-- Standard output of `git rev-list` printing one hash per line, each line terminated by
a newline. -/
def printLines : List String → List Char
  | [] => []
  | h :: hs => h.data ++ '\n' :: printLines hs

/-- An environment in which every outside call succeeds; `git rev-list` prints the two
hashes `ccc` and `bbb`, and replica `i` is the handle with index `i`. -/
def envOk : Env where
  MkdirTemp := ("/tmp/clone", none)
  gitClone := fun _ _ => none
  gitRevList := fun _ _ _ => ("ccc\nbbb\n", none)
  createJobReplica := fun i => (some ⟨i⟩, none)
  start := fun _ => none
  stop := fun _ => none
  RemoveAll := fun _ => none

/-- An environment in which constructing replica 2 fails and stopping replica 0 fails;
every other call succeeds. -/
def envCreateFails : Env where
  MkdirTemp := ("/tmp/clone", none)
  gitClone := fun _ _ => none
  gitRevList := fun _ _ _ => ("ccc\nbbb\n", none)
  createJobReplica := fun i => if i = 2 then (none, some "create failed") else (some ⟨i⟩, none)
  start := fun _ => none
  stop := fun r => if r = some ⟨0⟩ then some "stop failed" else none
  RemoveAll := fun _ => none

/-- An environment in which starting replica 2 fails and stopping replica 0 fails; every
other call succeeds. -/
def envStartFails : Env where
  MkdirTemp := ("/tmp/clone", none)
  gitClone := fun _ _ => none
  gitRevList := fun _ _ _ => ("ccc\nbbb\n", none)
  createJobReplica := fun i => (some ⟨i⟩, none)
  start := fun r => if r = some ⟨2⟩ then some "start failed" else none
  stop := fun r => if r = some ⟨0⟩ then some "stop failed" else none
  RemoveAll := fun _ => none

/-- An environment in which stopping replica 0 fails; every other call succeeds. -/
def envStopFails : Env where
  MkdirTemp := ("/tmp/clone", none)
  gitClone := fun _ _ => none
  gitRevList := fun _ _ _ => ("ccc\nbbb\n", none)
  createJobReplica := fun i => (some ⟨i⟩, none)
  start := fun _ => none
  stop := fun r => if r = some ⟨0⟩ then some "stop failed" else none
  RemoveAll := fun _ => none

/-- A job with two replicas and a clone directory, as `Job.Run` leaves it. -/
def jobTwoReplicas : Job :=
  { ReplicasCount := 2, replicas := [some ⟨0⟩, some ⟨1⟩], repoPath := "/tmp/clone" }

/-- A decoded config in which both `port` and `ports` are set. -/
def configPortAndPorts : jobConfig :=
  { Repository := "https://example.org/repo.git", Port := 80, Ports := [8080, 9090] }

/-- A decoded config naming repository, good commit and bad commit. -/
def configCommits : jobConfig :=
  { Repository := "https://example.org/repo.git", GoodCommit := "aaa", BadCommit := "ccc" }

/-- A decoded config with one fully specified healthcheck entry, the one of
`job_integration_test.go`. -/
def configHealthcheck : jobConfig :=
  { Repository := "https://example.org/repo.git"
    Healthcheck :=
      [{ Port := 3333, CheckType := "HttpGet200", Data := "/1"
         Config := { Retries := 50, Backoff := 10000000, MaxBackoff := 10000000 } }] }

/-- A decoded config of a document that only sets `dockerfile`: repository, good commit
and bad commit are missing. -/
def configMissingFields : jobConfig :=
  { Dockerfile := "FROM scratch" }

/-- A server with the system of replica 1 registered under the id `sys1`. -/
def serverOneSystem : httpServer :=
  { rsMap := [("sys1", { ReplicaIndex := 1, Ports := [(3333, 49153)] })] }

/-- A server with one running system waiting in the channel, with two ports mapped. -/
def serverOneWaiting : httpServer :=
  { rsChan := [{ ReplicaIndex := 0, Ports := [(3333, 49153), (80, 8080)] }] }

/-- A server with two systems registered, under the ids `sys1` and `sys2`. -/
def serverTwoSystems : httpServer :=
  { rsMap := [("sys1", { ReplicaIndex := 1, Ports := [(3333, 49153)] }),
              ("sys2", { ReplicaIndex := 2, Ports := [(3333, 49154)] })] }

/-! # Theorems -/

/-! ## Commit enumeration -/

theorem splitChars_line (sep : Char) (l rest : List Char) (h : sep ∉ l) :
    splitChars sep (l ++ sep :: rest) = l :: splitChars sep rest := by
  induction l with
  | nil => simp [splitChars]
  | cons c l ih =>
    have hc : c ≠ sep := fun e => h (by simp [e])
    have hl : sep ∉ l := fun e => h (by simp [e])
    simp [splitChars, hc, ih hl]

theorem splitChars_printLines (hs : List String) (h : ∀ x ∈ hs, '\n' ∉ x.data) :
    splitChars '\n' (printLines hs) = hs.map String.data ++ [[]] := by
  induction hs with
  | nil => simp [printLines, splitChars]
  | cons x xs ih =>
    have hx : '\n' ∉ x.data := h x (by simp)
    have hxs : ∀ y ∈ xs, '\n' ∉ y.data := fun y hy => h y (by simp [hy])
    simp [printLines, splitChars_line _ _ _ hx, ih hxs]

theorem Split_printLines (hs : List String) (h : ∀ x ∈ hs, '\n' ∉ x.data) :
    strings.Split (String.mk (printLines hs)) '\n' = hs ++ [""] := by
  unfold strings.Split
  rw [splitChars_printLines hs h]
  simp [List.map_map, Function.comp_def]

theorem createReplicas_commits (env : Env) (js : List Nat) (job : Job) :
    (createReplicas env js job).1.commits = job.commits := by
  induction js generalizing job with
  | nil => rfl
  | cons i rest ih =>
    simp only [createReplicas]
    split
    · rfl
    · split
      · rfl
      · rw [ih]

/-- C1 (code defect): after a successful enumeration whose output is one hash per line,
each line ended by a newline, the commit list stored by `Job.Run` is the list of hashes
followed by one empty string. Its last entry is therefore empty, not the good commit. -/
theorem Run_commits_trailing_empty (env : Env) (job : Job) (hashes : List String)
    (hlines : ∀ x ∈ hashes, '\n' ∉ x.data)
    (hmk : env.MkdirTemp.2 = none)
    (hclone : env.gitClone job.repository env.MkdirTemp.1 = none)
    (hout : env.gitRevList job.GoodCommit job.BadCommit env.MkdirTemp.1
      = (String.mk (printLines hashes), none)) :
    (Job.Run env job).1.commits = hashes ++ [""]
      ∧ (Job.Run env job).1.commits.getLast? = some ""
      ∧ (Job.Run env job).1.commits.length = hashes.length + 1 := by
  have key : (Job.Run env job).1.commits = hashes ++ [""] := by
    simp only [Job.Run, hmk, hclone, hout]
    split
    · exact Split_printLines hashes hlines
    · split
      · rw [createReplicas_commits]; exact Split_printLines hashes hlines
      · rw [createReplicas_commits]; exact Split_printLines hashes hlines
  rw [key]
  simp

/-- Witness for C1: with good commit `aaa`, bad commit `ccc` and the output `ccc\nbbb\n`,
the stored list is `ccc`, `bbb` and the empty string. -/
theorem Run_commits_trailing_empty_witness :
    (Job.Run envOk { GoodCommit := "aaa", BadCommit := "ccc" }).1.commits = ["ccc", "bbb", ""]
      ∧ (Job.Run envOk { GoodCommit := "aaa", BadCommit := "ccc" }).1.commits.getLast? = some ""
      ∧ (Job.Run envOk { GoodCommit := "aaa", BadCommit := "ccc" }).1.commits.length = 3 :=
  Run_commits_trailing_empty envOk { GoodCommit := "aaa", BadCommit := "ccc" } ["ccc", "bbb"]
    (by decide) rfl rfl rfl

/-! ## Roll-back in `Job.Run` and `Job.Stop` -/

/-- C2 (code defect): with three replicas, when constructing replica 2 fails (or, second
part, starting it fails) and stopping replica 0 fails, `Job.Run` returns the error of the
stop, not the construction (start) error, and replica 1 is never stopped: the only stop
in the trace is the one of replica 0. -/
theorem Run_rollback_returns_at_failed_stop :
    ((Job.Run envCreateFails { ReplicasCount := 3 }).2.2 = RunResult.error "stop failed"
      ∧ (envCreateFails.createJobReplica 2).2 = some "create failed"
      ∧ (Job.Run envCreateFails { ReplicasCount := 3 }).2.1
          = [Event.mkdirTemp, Event.clone "" "/tmp/clone", Event.revList "" "" "/tmp/clone",
             Event.create 0, Event.start (some ⟨0⟩), Event.create 1, Event.start (some ⟨1⟩),
             Event.create 2, Event.stop (some ⟨0⟩)]
      ∧ Event.stop (some ⟨1⟩) ∉ (Job.Run envCreateFails { ReplicasCount := 3 }).2.1)
    ∧ ((Job.Run envStartFails { ReplicasCount := 3 }).2.2 = RunResult.error "stop failed"
      ∧ envStartFails.start (some ⟨2⟩) = some "start failed"
      ∧ (Job.Run envStartFails { ReplicasCount := 3 }).2.1
          = [Event.mkdirTemp, Event.clone "" "/tmp/clone", Event.revList "" "" "/tmp/clone",
             Event.create 0, Event.start (some ⟨0⟩), Event.create 1, Event.start (some ⟨1⟩),
             Event.create 2, Event.start (some ⟨2⟩), Event.stop (some ⟨0⟩)]
      ∧ Event.stop (some ⟨1⟩) ∉ (Job.Run envStartFails { ReplicasCount := 3 }).2.1) := by
  decide

/-- C3 (code defect): for a job with replicas 0 and 1, when stopping replica 0 fails,
`Job.Stop` returns that error at once: replica 1 is not stopped and the clone directory
is not removed. -/
theorem Stop_returns_at_failed_stop :
    (Job.Run envStopFails { ReplicasCount := 2 }).1.replicas = jobTwoReplicas.replicas
      ∧ (Job.Run envStopFails { ReplicasCount := 2 }).1.repoPath = jobTwoReplicas.repoPath
      ∧ Job.Stop envStopFails jobTwoReplicas = ([Event.stop (some ⟨0⟩)], some "stop failed")
      ∧ Event.stop (some ⟨1⟩) ∉ (Job.Stop envStopFails jobTwoReplicas).1
      ∧ Event.removeAll jobTwoReplicas.repoPath ∉ (Job.Stop envStopFails jobTwoReplicas).1 := by
  decide

/-! ## `GetJobFromConfig` -/

/-- C4 (counterexample): for a config with `port: 80` and `ports: [8080, 9090]` the
returned job has `Ports = [80]`, not the `ports` list. -/
theorem GetJobFromConfig_ports_does_not_win :
    configPortAndPorts.Ports = [8080, 9090]
      ∧ GetJobFromConfig (fun _ => Except.ok configPortAndPorts) "port: 80"
          = Except.ok (jobOfConfig configPortAndPorts)
      ∧ (jobOfConfig configPortAndPorts).Ports = [80]
      ∧ (jobOfConfig configPortAndPorts).Ports ≠ configPortAndPorts.Ports := by
  refine ⟨rfl, rfl, ?_, ?_⟩ <;> decide

/-- C4 (amended): when the config decodes, a job is returned whose `Ports` is the
one-element list `[port]` whenever `port` is set (non-zero), also when `ports` is set as
well, and is the config's `ports` list when `port` is not set (zero). -/
theorem GetJobFromConfig_ports (Decode : String → Except GoError jobConfig) (r : String)
    (config : jobConfig) (hdec : Decode r = Except.ok config) :
    ∃ job, GetJobFromConfig Decode r = Except.ok job
      ∧ (config.Port ≠ 0 → job.Ports = [config.Port])
      ∧ (config.Port = 0 → job.Ports = config.Ports) := by
  refine ⟨jobOfConfig config, ?_, ?_, ?_⟩
  · simp [GetJobFromConfig, hdec]
  · intro h; simp [jobOfConfig, h]
  · intro h; simp [jobOfConfig, h]

/-- Witness for C4 (amended), at the config with `port: 80` and `ports: [8080, 9090]`. -/
theorem GetJobFromConfig_ports_witness :
    ∃ job, GetJobFromConfig (fun _ => Except.ok configPortAndPorts) "port: 80" = Except.ok job
      ∧ (configPortAndPorts.Port ≠ 0 → job.Ports = [configPortAndPorts.Port])
      ∧ (configPortAndPorts.Port = 0 → job.Ports = configPortAndPorts.Ports) :=
  GetJobFromConfig_ports (fun _ => Except.ok configPortAndPorts) "port: 80"
    configPortAndPorts rfl

/-- C7 (code defect): for a config with `goodCommit: aaa` and `badCommit: ccc` the
returned job carries the repository but has empty `GoodCommit` and `BadCommit`. -/
theorem GetJobFromConfig_drops_commits :
    GetJobFromConfig (fun _ => Except.ok configCommits) "goodCommit: aaa"
        = Except.ok (jobOfConfig configCommits)
      ∧ (jobOfConfig configCommits).repository = "https://example.org/repo.git"
      ∧ configCommits.GoodCommit = "aaa" ∧ (jobOfConfig configCommits).GoodCommit = ""
      ∧ configCommits.BadCommit = "ccc" ∧ (jobOfConfig configCommits).BadCommit = "" := by
  refine ⟨rfl, ?_, ?_, ?_, ?_, ?_⟩ <;> decide

/-- C8 (code defect): for a config with one healthcheck entry with port 3333, check type
`HttpGet200`, data `/1` and 50 retries, the job has one healthcheck that carries the port
only: its data is empty and its retry configuration is all zero. -/
theorem GetJobFromConfig_healthcheck_port_only :
    GetJobFromConfig (fun _ => Except.ok configHealthcheck) "healthcheck: ..."
        = Except.ok (jobOfConfig configHealthcheck)
      ∧ (jobOfConfig configHealthcheck).Healthchecks
          = [{ Port := 3333, CheckType := 0, Data := "",
               Config := { Retries := 0, Backoff := 0, MaxBackoff := 0 } }]
      ∧ (configHealthcheck.Healthcheck.map (fun c => c.Data)) = ["/1"]
      ∧ (configHealthcheck.Healthcheck.map (fun c => c.Config.Retries)) = [50] := by
  refine ⟨rfl, ?_, ?_, ?_⟩ <;> decide

/-- C9 (counterexample): a config that decodes with repository, good commit and bad
commit all missing yields a job and no error. -/
theorem GetJobFromConfig_accepts_missing_fields :
    configMissingFields.Repository = "" ∧ configMissingFields.GoodCommit = ""
      ∧ configMissingFields.BadCommit = ""
      ∧ GetJobFromConfig (fun _ => Except.ok configMissingFields) "dockerfile: FROM scratch"
          = Except.ok (jobOfConfig configMissingFields)
      ∧ ∀ err, GetJobFromConfig (fun _ => Except.ok configMissingFields)
          "dockerfile: FROM scratch" ≠ Except.error err := by
  refine ⟨rfl, rfl, rfl, rfl, ?_⟩
  intro err h
  simp [GetJobFromConfig] at h

/-- C9 (amended): `GetJobFromConfig` returns an error, and no job, exactly when the YAML
fails to decode, and the error is the decode error; a config that decodes yields a job
whatever fields it lacks. -/
theorem GetJobFromConfig_error_iff_decode_error
    (Decode : String → Except GoError jobConfig) (r : String) :
    (∀ err, GetJobFromConfig Decode r = Except.error err ↔ Decode r = Except.error err)
      ∧ ((∃ job, GetJobFromConfig Decode r = Except.ok job) ↔ ∃ config, Decode r = Except.ok config)
      ∧ (∀ config, Decode r = Except.ok config →
          GetJobFromConfig Decode r = Except.ok (jobOfConfig config)) := by
  unfold GetJobFromConfig
  cases h : Decode r with
  | error e => simp
  | ok c => simp

/-- Witness for C9 (amended): a decoder that fails with `yaml: bad indentation`
and a decoder that gives the config without repository and commits. -/
theorem GetJobFromConfig_error_iff_decode_error_witness :
    GetJobFromConfig (fun _ => Except.error "yaml: bad indentation") "a:\n b"
        = Except.error "yaml: bad indentation"
      ∧ GetJobFromConfig (fun _ => Except.ok configMissingFields) "dockerfile: FROM scratch"
        = Except.ok (jobOfConfig configMissingFields) :=
  ⟨((GetJobFromConfig_error_iff_decode_error
      (fun _ => Except.error "yaml: bad indentation") "a:\n b").1 _).2 rfl,
    (GetJobFromConfig_error_iff_decode_error
      (fun _ => Except.ok configMissingFields) "dockerfile: FROM scratch").2.2 _ rfl⟩

/-! ## Channel capacity -/

theorem createReplicas_all_succeed (env : Env) (hc : ∀ i, (env.createJobReplica i).2 = none)
    (hs : ∀ r, env.start r = none) (js : List Nat) (job : Job) :
    (createReplicas env js job).2.2 = none := by
  induction js generalizing job with
  | nil => rfl
  | cons i rest ih =>
    simp only [createReplicas, hc, hs]
    exact ih _

theorem Run_all_succeed (env : Env) (job : Job)
    (hmk : env.MkdirTemp.2 = none) (hclone : ∀ a b, env.gitClone a b = none)
    (hout : ∀ a b c, (env.gitRevList a b c).2 = none)
    (hc : ∀ i, (env.createJobReplica i).2 = none) (hs : ∀ r, env.start r = none)
    (hn : 0 ≤ job.ReplicasCount) :
    (Job.Run env job).2.2 = RunResult.ok ⟨channelSize⟩ ⟨channelSize⟩ := by
  simp only [Job.Run, hmk, hclone, hout, createReplicas_all_succeed env hc hs]
  simp [Int.not_lt.mpr hn]

/-- C6 (code defect): a job with 101 replicas runs successfully and gets two channels of
the hard-coded capacity 100, which is less than its replica count; the source marks the
literal with the note "Don't hardcode channel size". -/
theorem Run_channels_smaller_than_replica_count :
    (Job.Run envOk { ReplicasCount := 101 }).2.2 = RunResult.ok ⟨100⟩ ⟨100⟩
      ∧ ¬ (({ ReplicasCount := 101 } : Job).ReplicasCount ≤ ((100 : Nat) : Int)) := by
  constructor
  · exact Run_all_succeed envOk _ rfl (fun _ _ => rfl) (fun _ _ _ => rfl) (fun _ => rfl)
      (fun _ => rfl) (by decide)
  · decide

/-- Whenever `Job.Run` returns its channels, both have the hard-coded capacity 100,
whatever `ReplicasCount` is; so the capacity is at least `ReplicasCount` exactly when
`ReplicasCount` is at most 100. -/
theorem Run_channel_capacity (env : Env) (job : Job) (rsChan ocChan : Chan)
    (hrun : (Job.Run env job).2.2 = RunResult.ok rsChan ocChan) :
    rsChan.cap = 100 ∧ ocChan.cap = 100
      ∧ (job.ReplicasCount ≤ (rsChan.cap : Int) ↔ job.ReplicasCount ≤ 100)
      ∧ (job.ReplicasCount ≤ (ocChan.cap : Int) ↔ job.ReplicasCount ≤ 100) := by
  have hcap : rsChan = ⟨100⟩ ∧ ocChan = ⟨100⟩ := by
    simp only [Job.Run] at hrun
    split at hrun
    · simp at hrun
    · split at hrun
      · simp at hrun
      · split at hrun
        · simp at hrun
        · split at hrun
          · simp at hrun
          · split at hrun
            · simp at hrun
            · simp only [RunResult.ok.injEq, channelSize] at hrun
              exact ⟨hrun.1.symm, hrun.2.symm⟩
  obtain ⟨h1, h2⟩ := hcap
  subst h1 h2
  simp

/-- The capacity of the channels at a run with two replicas. -/
theorem Run_channel_capacity_witness :
    (Job.Run envOk { ReplicasCount := 2 }).2.2 = RunResult.ok ⟨100⟩ ⟨100⟩
      ∧ (⟨100⟩ : Chan).cap = 100 ∧ (⟨100⟩ : Chan).cap = 100
      ∧ (({ ReplicasCount := 2 } : Job).ReplicasCount ≤ ((⟨100⟩ : Chan).cap : Int)
          ↔ ({ ReplicasCount := 2 } : Job).ReplicasCount ≤ 100)
      ∧ (({ ReplicasCount := 2 } : Job).ReplicasCount ≤ ((⟨100⟩ : Chan).cap : Int)
          ↔ ({ ReplicasCount := 2 } : Job).ReplicasCount ≤ 100) :=
  ⟨by decide, Run_channel_capacity envOk { ReplicasCount := 2 } ⟨100⟩ ⟨100⟩ (by decide)⟩

/-! ## Verdict handlers -/

/-- C5: for every server state and id, when the id is registered with the system `rs`,
`postIsGood` and `postIsBad` answer 200 and call `IsGood`, respectively `IsBad`, on `rs`
and on nothing else; when the id is not registered they answer 404, make no verdict call
and leave the server, its id map included, as it was. -/
theorem postVerdict_dispatch (h : httpServer) (id : String) :
    (∀ rs, GoMap.get h.rsMap id = some rs →
      (h.postIsGood id).status = 200 ∧ (h.postIsGood id).delivered = [⟨rs, Verdict.IsGood⟩]
        ∧ (h.postIsBad id).status = 200 ∧ (h.postIsBad id).delivered = [⟨rs, Verdict.IsBad⟩])
    ∧ (GoMap.get h.rsMap id = none →
      (h.postIsGood id).status = 404 ∧ (h.postIsGood id).delivered = []
        ∧ (h.postIsGood id).server = h ∧ (h.postIsGood id).server.rsMap = h.rsMap
        ∧ (h.postIsBad id).status = 404 ∧ (h.postIsBad id).delivered = []
        ∧ (h.postIsBad id).server = h ∧ (h.postIsBad id).server.rsMap = h.rsMap) := by
  constructor
  · intro rs hrs
    simp [httpServer.postIsGood, httpServer.postIsBad, hrs]
  · intro hnone
    simp [httpServer.postIsGood, httpServer.postIsBad, hnone]

/-- Witness for C5: the registered id `sys1` and the unknown id `nope`. -/
theorem postVerdict_dispatch_witness :
    ((serverOneSystem.postIsGood "sys1").status = 200
      ∧ (serverOneSystem.postIsGood "sys1").delivered
          = [⟨{ ReplicaIndex := 1, Ports := [(3333, 49153)] }, Verdict.IsGood⟩]
      ∧ (serverOneSystem.postIsBad "sys1").status = 200
      ∧ (serverOneSystem.postIsBad "sys1").delivered
          = [⟨{ ReplicaIndex := 1, Ports := [(3333, 49153)] }, Verdict.IsBad⟩])
    ∧ ((serverOneSystem.postIsGood "nope").status = 404
      ∧ (serverOneSystem.postIsGood "nope").delivered = []
      ∧ (serverOneSystem.postIsGood "nope").server = serverOneSystem
      ∧ (serverOneSystem.postIsGood "nope").server.rsMap = serverOneSystem.rsMap
      ∧ (serverOneSystem.postIsBad "nope").status = 404
      ∧ (serverOneSystem.postIsBad "nope").delivered = []
      ∧ (serverOneSystem.postIsBad "nope").server = serverOneSystem
      ∧ (serverOneSystem.postIsBad "nope").server.rsMap = serverOneSystem.rsMap) :=
  ⟨(postVerdict_dispatch serverOneSystem "sys1").1 _ (by decide),
    (postVerdict_dispatch serverOneSystem "nope").2 (by decide)⟩

/-! ## Stringified port map -/

theorem digitVal_digitChar (d : Nat) (h : d < 10) : digitVal (Nat.digitChar d) = some d := by
  interval_cases d <;> rfl

theorem parseDigits_toDigitsCore (fuel : Nat) :
    ∀ (n : Nat) (ds : List Char), n < fuel →
      parseDigits 0 (Nat.toDigitsCore 10 fuel n ds) = parseDigits n ds := by
  induction fuel with
  | zero => intro n ds h; omega
  | succ fuel ih =>
    intro n ds h
    have hd : digitVal (Nat.digitChar (n % 10)) = some (n % 10) :=
      digitVal_digitChar _ (Nat.mod_lt _ (by decide))
    simp only [Nat.toDigitsCore]
    split
    · rename_i h0
      have hn : n % 10 = n := by omega
      simp only [parseDigits, hd]
      rw [hn, Nat.mul_zero, Nat.zero_add]
    · rename_i h0
      rw [ih (n / 10) _ (by omega)]
      simp only [parseDigits, hd]
      congr 1
      omega

theorem toDigitsCore_ne_nil (fuel n : Nat) (ds : List Char) :
    Nat.toDigitsCore 10 (fuel + 1) n ds ≠ [] := by
  induction fuel generalizing n ds with
  | zero => simp [Nat.toDigitsCore]
  | succ fuel ih =>
    rw [Nat.toDigitsCore]
    split
    · simp
    · exact ih _ _

theorem parseNat_toDigits (n : Nat) : parseNat (Nat.toDigits 10 n) = some n := by
  unfold parseNat Nat.toDigits
  rw [if_neg (toDigitsCore_ne_nil n n [])]
  rw [parseDigits_toDigitsCore (n + 1) n [] (by omega)]
  rfl

/-- Reading back what `fmt.Sprint` prints gives the integer printed. -/
theorem parseInt_Sprint (i : Int) : parseInt (fmt.Sprint i) = some i := by
  cases i with
  | ofNat n =>
    have hp := parseNat_toDigits n
    simp only [fmt.Sprint, parseInt]
    cases hds : Nat.toDigits 10 n with
    | nil => rw [hds] at hp; simp [parseNat] at hp
    | cons c cs =>
      rw [hds] at hp
      have hc : c ≠ '-' := by
        intro hc
        subst hc
        simp [parseNat, parseDigits, digitVal] at hp
      simp [hc, hp]
  | negSucc n =>
    simp [fmt.Sprint, parseInt, parseNat_toDigits, Int.negSucc_eq]

theorem Sprint_injective (a b : Int) (h : fmt.Sprint a = fmt.Sprint b) : a = b := by
  have ha := parseInt_Sprint a
  rw [h, parseInt_Sprint b] at ha
  exact (Option.some.inj ha).symm

theorem delete_of_not_mem_keys {K V : Type} [DecidableEq K] (m : GoMap K V) (k : K)
    (h : k ∉ GoMap.keys m) : GoMap.delete m k = m := by
  unfold GoMap.delete
  rw [List.filter_eq_self]
  intro e he
  have hne : e.1 ≠ k := by
    intro heq
    exact h (by rw [← heq]; exact List.mem_map_of_mem Prod.fst he)
  simpa using hne

theorem stringifyPorts_eq (ports : List (Int × Int)) :
    ∀ (acc : GoMap String String), (GoMap.keys ports).Nodup →
      (∀ k ∈ GoMap.keys ports, fmt.Sprint k ∉ GoMap.keys acc) →
      stringifyPorts acc ports
        = (ports.map (fun e => (fmt.Sprint e.1, fmt.Sprint e.2))).reverse ++ acc := by
  induction ports with
  | nil => intro acc _ _; simp [stringifyPorts]
  | cons e rest ih =>
    intro acc hnd hfresh
    obtain ⟨k, v⟩ := e
    have hk : k ∉ GoMap.keys rest := (List.nodup_cons.mp hnd).1
    have hrest : (GoMap.keys rest).Nodup := (List.nodup_cons.mp hnd).2
    have hacc : fmt.Sprint k ∉ GoMap.keys acc := hfresh k (by simp [GoMap.keys])
    have hset : GoMap.set acc (fmt.Sprint k) (fmt.Sprint v)
        = (fmt.Sprint k, fmt.Sprint v) :: acc := by
      unfold GoMap.set
      rw [delete_of_not_mem_keys acc _ hacc]
    simp only [stringifyPorts]
    rw [hset, ih _ hrest]
    · simp
    · intro k1 hk1 hmem
      have hmem2 : fmt.Sprint k1 = fmt.Sprint k ∨ fmt.Sprint k1 ∈ GoMap.keys acc := by
        simpa [GoMap.keys] using hmem
      rcases hmem2 with heq | hin
      · exact hk (by rw [← Sprint_injective _ _ heq]; exact hk1)
      · exact hfresh k1 (by simp only [GoMap.keys, List.map_cons, List.mem_cons]; right; exact hk1) hin

theorem get_eq_some_iff_mem {K V : Type} [DecidableEq K] (m : GoMap K V)
    (hnd : (GoMap.keys m).Nodup) (k : K) (v : V) :
    GoMap.get m k = some v ↔ (k, v) ∈ m := by
  induction m with
  | nil => simp [GoMap.get]
  | cons e rest ih =>
    obtain ⟨k1, v1⟩ := e
    have hk1 : k1 ∉ GoMap.keys rest := (List.nodup_cons.mp hnd).1
    have hrest : (GoMap.keys rest).Nodup := (List.nodup_cons.mp hnd).2
    simp only [GoMap.get, List.mem_cons, Prod.mk.injEq]
    by_cases hk : k1 = k
    · subst hk
      simp only [if_true, Option.some.injEq, true_and]
      constructor
      · intro hv; exact Or.inl hv.symm
      · rintro (hv | hin)
        · exact hv.symm
        · exact absurd (List.mem_map_of_mem Prod.fst hin) hk1
    · simp only [if_neg hk, ih hrest]
      constructor
      · intro hin; exact Or.inr hin
      · rintro (⟨hkk, _⟩ | hin)
        · exact absurd hkk.symm hk
        · exact hin

theorem stringifyPorts_nil (ports : List (Int × Int)) (hmap : (GoMap.keys ports).Nodup) :
    stringifyPorts [] ports = (ports.map (fun e => (fmt.Sprint e.1, fmt.Sprint e.2))).reverse := by
  rw [stringifyPorts_eq ports [] hmap (by simp [GoMap.keys])]
  simp

/-- C10: when `GET /system` takes a running system from the channel, the `ports` map of
the response has as many entries as the system's port map, no key twice, holds exactly the
entries `Sprint k -> Sprint v` for the entries `k -> v` of the port map, and reading its
keys and values back as decimal integers gives the entries of the port map again. -/
theorem getSystem_ports_roundtrip (h : httpServer) (system : RunningSystem)
    (rest : List RunningSystem) (id : String) (hq : h.rsChan = system :: rest)
    (hmap : (GoMap.keys system.Ports).Nodup) :
    ∃ server body,
      h.getSystem SelectCase.rsChan id = some (server, SystemResponse.runningSystem body)
        ∧ body.Ports.length = system.Ports.length
        ∧ (GoMap.keys body.Ports).Nodup
        ∧ (∀ e, e ∈ body.Ports ↔
            ∃ k v, (k, v) ∈ system.Ports ∧ e = (fmt.Sprint k, fmt.Sprint v))
        ∧ (∀ k v, GoMap.get body.Ports (fmt.Sprint k) = some (fmt.Sprint v)
            ↔ GoMap.get system.Ports k = some v)
        ∧ (body.Ports.map (fun e => (parseInt e.1, parseInt e.2))).Perm
            (system.Ports.map (fun e => (some e.1, some e.2))) := by
  have hS := stringifyPorts_nil system.Ports hmap
  have hmem : ∀ e, e ∈ stringifyPorts [] system.Ports ↔
      ∃ k v, (k, v) ∈ system.Ports ∧ e = (fmt.Sprint k, fmt.Sprint v) := by
    intro e
    rw [hS, List.mem_reverse, List.mem_map]
    constructor
    · rintro ⟨⟨k, v⟩, hin, rfl⟩
      exact ⟨k, v, hin, rfl⟩
    · rintro ⟨k, v, hin, rfl⟩
      exact ⟨(k, v), hin, rfl⟩
  have hnd : (GoMap.keys (stringifyPorts [] system.Ports)).Nodup := by
    rw [hS]
    unfold GoMap.keys
    rw [List.map_reverse, List.nodup_reverse, List.map_map]
    have hcomp : (Prod.fst ∘ fun e : Int × Int => (fmt.Sprint e.1, fmt.Sprint e.2))
        = fmt.Sprint ∘ Prod.fst := by
      funext e; rfl
    rw [hcomp, ← List.map_map]
    exact List.Nodup.map (fun a b hab => Sprint_injective a b hab) hmap
  refine ⟨{ h with rsChan := rest, rsMap := GoMap.set h.rsMap id system },
    { SystemIndex := id, ReplicaIndex := system.ReplicaIndex,
      Ports := stringifyPorts [] system.Ports }, ?_, ?_, hnd, hmem, ?_, ?_⟩
  · simp [httpServer.getSystem, hq]
  · simp [hS]
  · intro k v
    rw [get_eq_some_iff_mem _ hnd, get_eq_some_iff_mem _ hmap, hmem]
    constructor
    · rintro ⟨k1, v1, hin, heq⟩
      have h1 : fmt.Sprint k = fmt.Sprint k1 := congrArg Prod.fst heq
      have h2 : fmt.Sprint v = fmt.Sprint v1 := congrArg Prod.snd heq
      rw [Sprint_injective _ _ h1, Sprint_injective _ _ h2]
      exact hin
    · intro hin
      exact ⟨k, v, hin, rfl⟩
  · show ((stringifyPorts [] system.Ports).map (fun e => (parseInt e.1, parseInt e.2))).Perm _
    rw [hS, List.map_reverse, List.map_map]
    have hcomp : ((fun e : String × String => (parseInt e.1, parseInt e.2))
        ∘ fun e : Int × Int => (fmt.Sprint e.1, fmt.Sprint e.2))
        = fun e : Int × Int => (some e.1, some e.2) := by
      funext e
      simp [parseInt_Sprint]
    rw [hcomp]
    exact List.reverse_perm _

/-- Witness for C10: a running system with the port map 3333 -> 49153, 80 -> 8080. -/
theorem getSystem_ports_roundtrip_witness :
    ∃ server body,
      serverOneWaiting.getSystem SelectCase.rsChan "sys1"
          = some (server, SystemResponse.runningSystem body)
        ∧ body.Ports.length = [((3333 : Int), (49153 : Int)), (80, 8080)].length
        ∧ (GoMap.keys body.Ports).Nodup
        ∧ (∀ e, e ∈ body.Ports ↔
            ∃ k v, (k, v) ∈ [((3333 : Int), (49153 : Int)), (80, 8080)]
              ∧ e = (fmt.Sprint k, fmt.Sprint v))
        ∧ (∀ k v, GoMap.get body.Ports (fmt.Sprint k) = some (fmt.Sprint v)
            ↔ GoMap.get [((3333 : Int), (49153 : Int)), (80, 8080)] k = some v)
        ∧ (body.Ports.map (fun e => (parseInt e.1, parseInt e.2))).Perm
            ([((3333 : Int), (49153 : Int)), (80, 8080)].map (fun e => (some e.1, some e.2))) :=
  getSystem_ports_roundtrip serverOneWaiting
    { ReplicaIndex := 0, Ports := [(3333, 49153), (80, 8080)] } [] "sys1" rfl (by decide)

/-! ## One verdict per registered id -/

theorem get_delete_self {K V : Type} [DecidableEq K] (m : GoMap K V) (k : K) :
    GoMap.get (GoMap.delete m k) k = none := by
  induction m with
  | nil => rfl
  | cons e rest ih =>
    obtain ⟨k1, v1⟩ := e
    unfold GoMap.delete at ih ⊢
    by_cases hk : k1 = k
    · simpa [List.filter_cons, hk] using ih
    · simpa [List.filter_cons, hk, GoMap.get] using ih

theorem get_delete_of_ne {K V : Type} [DecidableEq K] (m : GoMap K V) (k k2 : K)
    (hne : k2 ≠ k) : GoMap.get (GoMap.delete m k) k2 = GoMap.get m k2 := by
  induction m with
  | nil => rfl
  | cons e rest ih =>
    obtain ⟨k1, v1⟩ := e
    unfold GoMap.delete at ih ⊢
    by_cases hk : k1 = k
    · have hk2 : k1 ≠ k2 := fun heq => hne (heq.symm.trans hk)
      have hf : List.filter (fun e : K × V => decide (e.1 ≠ k)) ((k1, v1) :: rest)
          = List.filter (fun e : K × V => decide (e.1 ≠ k)) rest := by
        simp [List.filter_cons, hk]
      rw [hf, ih]
      simp [GoMap.get, hk2]
    · have hf : List.filter (fun e : K × V => decide (e.1 ≠ k)) ((k1, v1) :: rest)
          = (k1, v1) :: List.filter (fun e : K × V => decide (e.1 ≠ k)) rest := by
        simp [List.filter_cons, hk]
      rw [hf]
      simp only [GoMap.get]
      rw [ih]

theorem status_ok_registered (h : httpServer) (id : String) (out : VerdictOutcome)
    (hout : out = h.postIsGood id ∨ out = h.postIsBad id) (hok : out.status = 200) :
    ∃ rs, GoMap.get h.rsMap id = some rs
      ∧ out.server = { h with rsMap := GoMap.delete h.rsMap id }
      ∧ (out.delivered = [⟨rs, Verdict.IsGood⟩] ∨ out.delivered = [⟨rs, Verdict.IsBad⟩]) := by
  cases hget : GoMap.get h.rsMap id with
  | none =>
    rcases hout with hout | hout <;>
      · subst hout
        simp [httpServer.postIsGood, httpServer.postIsBad, hget] at hok
  | some rs =>
    refine ⟨rs, rfl, ?_⟩
    rcases hout with hout | hout <;>
      · subst hout
        simp [httpServer.postIsGood, httpServer.postIsBad, hget]

/-- C11: when `postIsGood` or `postIsBad` succeeds (status 200) for an id, it made
exactly one verdict call, the id is no longer in the id map of the server it leaves
behind, so a repeated `postIsGood` or `postIsBad` for that id answers 404 and makes no
verdict call, and every other id is looked up in the id map with the same result as
before (the same `RunningSystem` if it was registered). -/
theorem verdict_accepted_at_most_once (h : httpServer) (id : String) (out : VerdictOutcome)
    (hout : out = h.postIsGood id ∨ out = h.postIsBad id) (hok : out.status = 200) :
    out.delivered.length = 1
      ∧ GoMap.get out.server.rsMap id = none
      ∧ (out.server.postIsGood id).status = 404 ∧ (out.server.postIsGood id).delivered = []
      ∧ (out.server.postIsBad id).status = 404 ∧ (out.server.postIsBad id).delivered = []
      ∧ (∀ other, other ≠ id →
          GoMap.get out.server.rsMap other = GoMap.get h.rsMap other) := by
  obtain ⟨rs, _, hserver, hdel⟩ := status_ok_registered h id out hout hok
  have hgone : GoMap.get out.server.rsMap id = none := by
    rw [hserver]; exact get_delete_self _ _
  refine ⟨?_, hgone, ?_, ?_, ?_, ?_, ?_⟩
  · rcases hdel with hd | hd <;> rw [hd] <;> rfl
  · simp [httpServer.postIsGood, hgone]
  · simp [httpServer.postIsGood, hgone]
  · simp [httpServer.postIsBad, hgone]
  · simp [httpServer.postIsBad, hgone]
  · intro other hne
    rw [hserver]
    exact get_delete_of_ne _ _ _ hne

/-- Witness for C11: with `sys1` and `sys2` registered, a good verdict for `sys1`. -/
theorem verdict_accepted_at_most_once_witness :
    (serverTwoSystems.postIsGood "sys1").status = 200
      ∧ GoMap.get (serverTwoSystems.postIsGood "sys1").server.rsMap "sys2"
          = some { ReplicaIndex := 2, Ports := [(3333, 49154)] }
      ∧ (serverTwoSystems.postIsGood "sys1").delivered.length = 1
      ∧ GoMap.get (serverTwoSystems.postIsGood "sys1").server.rsMap "sys1" = none
      ∧ ((serverTwoSystems.postIsGood "sys1").server.postIsGood "sys1").status = 404
      ∧ ((serverTwoSystems.postIsGood "sys1").server.postIsGood "sys1").delivered = []
      ∧ ((serverTwoSystems.postIsGood "sys1").server.postIsBad "sys1").status = 404
      ∧ ((serverTwoSystems.postIsGood "sys1").server.postIsBad "sys1").delivered = []
      ∧ (∀ other, other ≠ "sys1" →
          GoMap.get (serverTwoSystems.postIsGood "sys1").server.rsMap other
            = GoMap.get serverTwoSystems.rsMap other) :=
  ⟨by decide, by decide,
    verdict_accepted_at_most_once serverTwoSystems "sys1" (serverTwoSystems.postIsGood "sys1")
      (Or.inl rfl) (by decide)⟩

end Biscepter
